import Mathlib

/-!
# Verification of WASEQuery (WASE query tool)

A shallow embedding of `WASEQuery.py`, the query-construction and
result-flattening core of the WASE query tool, together with proofs of the
specification's testable properties.

The Python program builds Elasticsearch queries via `elasticsearch_dsl`
(`Q`, `A`, `Search`) and flattens the engine's aggregation results.  We embed:

* the query DSL values the program constructs (`Query`, `Filter`, `AggBucket`)
  as inductive data, mirroring exactly the clauses the Python code creates;
* the builder functions `query_missing`, `query_missingheader`,
  `query_missingparam`, `query_headervals`, `query`,
  `add_default_aggregation` as Lean functions on a functional `Search` state;
* Python exceptions (`ValueError` from `int()`, `KeyError`, `TypeError`) as
  an error type `PyErr`, with fallible code in `Except PyErr`;
* the post-execution output loops (raw-field printing, URL-bucket printing,
  header-value flattening with the `max-urls` cap) as pure functions from the
  engine's result data to the list of printed lines.
-/

set_option autoImplicit false

namespace WASEQuery

/-- Python exceptions relevant to `WASEQuery.py`: `ValueError` (raised by
`int()` on a non-integer string; the spec's `InvalidRangeError`), `KeyError`
(missing dict key; the spec's `FieldLookupError`), `TypeError` (indexing a
string with a string key). -/
inductive PyErr where
  | valueError
  | keyError
  | typeError
deriving Repr, DecidableEq

/-- The query clauses the program builds with `elasticsearch_dsl.Q`:
`Q("match", **{field: value})`, negation `~q` (a bool/must_not wrapper), and
`Q("query_string", query=q)`. -/
inductive Query where
  | matchQ (field : String) (value : String)
  | negate (q : Query)
  | query_string (q : String)
deriving Repr, DecidableEq

/-- The filter clauses built by `s.filter(...)`: `terms`, `range` (with
`gte`/`lte` bounds), and `term`.  A list of filters is conjunctive (AND) in
Elasticsearch semantics. -/
inductive Filter where
  | terms (field : String) (values : List String)
  | range (field : String) (gte lte : Int)
  | term (field : String) (value : String)
deriving Repr, DecidableEq

/-- Aggregation bucket kinds used by the program: `terms` (with `size`,
where `size = 0` means unbounded), `nested` (descend into a nested path),
`filter` (filter bucket with a query), `reverse_nested` (ascend back to the
root document). -/
inductive AggKind where
  | terms (field : String) (size : Nat)
  | nested (path : String)
  | filterQ (q : Query)
  | reverse_nested
deriving Repr, DecidableEq

/-- A named aggregation bucket, as produced by `s.aggs.bucket(name, ...)`. -/
structure AggBucket where
  name : String
  kind : AggKind
deriving Repr, DecidableEq

/-- The parts of an `elasticsearch_dsl.Search` object the program sets: the
main query, the filter list, and the aggregation bucket chain (every
aggregation tree the program builds is a path, so a list suffices). -/
structure Search where
  query : Option Query
  filters : List Filter
  aggs : List AggBucket
deriving Repr, DecidableEq

/-- `Search(using=es).index(args.index)`: a fresh search with no query, no
filters and no aggregations. -/
def emptySearch : Search := ⟨none, [], []⟩

/-- Numeric value of a list of decimal digit characters. -/
def digitsToNat (l : List Char) : Nat :=
  l.foldl (fun a c => a * 10 + (c.toNat - 48)) 0

/-- Split a character list at every occurrence of the separator `c`.
Models Python `str.split(sep)` for a one-character separator (the program
only ever splits on `"-"` and `"."`): no occurrence gives one part, and
leading/trailing/adjacent occurrences give empty parts. -/
def splitChar (c : Char) (l : List Char) : List (List Char) :=
  match l with
  | [] => [[]]
  | x :: rest =>
    let r := splitChar c rest
    if x = c then [] :: r
    else
      match r with
      | [] => [[x]]
      | h :: t => (x :: h) :: t

/-- Python `s.split(sep)` for a one-character separator, on strings. -/
def pySplit (sep : Char) (s : String) : List String :=
  (splitChar sep s.data).map (fun cs => ⟨cs⟩)

/-- Python `str.strip()` on a character list: drop whitespace from both
ends. -/
def pyStrip (l : List Char) : List Char :=
  ((l.dropWhile Char.isWhitespace).reverse.dropWhile Char.isWhitespace).reverse

/-- Python `int(s)` on a decimal string: strip surrounding whitespace, allow
one optional sign, then require a nonempty run of digits; any other shape
raises `ValueError` (modelled as `none`). -/
def pyInt (s : String) : Option Int :=
  match pyStrip s.data with
  | [] => none
  | c :: rest =>
    if c = '-' then
      if !rest.isEmpty && rest.all Char.isDigit then
        some (-(digitsToNat rest : Int))
      else none
    else if c = '+' then
      if !rest.isEmpty && rest.all Char.isDigit then
        some (digitsToNat rest : Int)
      else none
    else if (c :: rest).all Char.isDigit then
      some (digitsToNat (c :: rest) : Int)
    else none

/-- One iteration of the response-code loop in `query_missing`
(`WASEQuery.py` lines 38-43): split the entry on `"-"`; exactly two parts
give a `range` filter on `response.status` with `int`-converted bounds
(`ValueError` if a bound is not an integer); any other number of parts gives
a `term` filter on `response.status` with the entry kept as a string. -/
def parseRcFilter (rc : String) : Except PyErr Filter :=
  match pySplit '-' rc with
  | [a, b] =>
    match pyInt a, pyInt b with
    | some x, some y => .ok (.range "response.status" x y)
    | _, _ => .error .valueError
  | _ => .ok (.term "response.status" rc)

/-- The `for rc in responsecodes` loop of `query_missing`: append one filter
per entry, in order, aborting the whole call on the first `ValueError`. -/
def addRcFilters (s : Search) (rcs : List String) : Except PyErr Search :=
  match rcs with
  | [] => .ok s
  | rc :: rest => do
    let f ← parseRcFilter rc
    addRcFilters { s with filters := s.filters ++ [f] } rest

/-- Python truthiness of an optional list argument built by
`argparse` `action="append"`: `None` and `[]` are falsy. -/
def listTruthy (l : Option (List String)) : Bool :=
  match l with
  | none => false
  | some xs => !xs.isEmpty

/-- `query_missing(s, field, name, methods, responsecodes, invert)`
(`WASEQuery.py` lines 25-46): the main query is `Q("match", **{field: name})`,
negated (`~q`) when `invert` is false; then, if `methods` is truthy, one
`terms` filter on `request.method`; then one filter per response-code entry. -/
def query_missing (s : Search) (field name : String)
    (methods : Option (List String)) (responsecodes : Option (List String))
    (invert : Bool) : Except PyErr Search := do
  let q := Query.matchQ field name
  let q := if !invert then Query.negate q else q
  let s := { s with query := some q }
  let s :=
    if listTruthy methods then
      { s with filters := s.filters ++ [Filter.terms "request.method" (methods.getD [])] }
    else s
  let s ←
    if listTruthy responsecodes then
      addRcFilters s (responsecodes.getD [])
    else pure s
  return s

/-- `query_missingheader`: `query_missing` on field `response.headernames`. -/
def query_missingheader (s : Search) (headername : String)
    (methods responsecodes : Option (List String)) (invert : Bool) :
    Except PyErr Search :=
  query_missing s "response.headernames" headername methods responsecodes invert

/-- `query_missingparam`: `query_missing` on field `request.parameternames`. -/
def query_missingparam (s : Search) (paramname : String)
    (methods responsecodes : Option (List String)) (invert : Bool) :
    Except PyErr Search :=
  query_missing s "request.parameternames" paramname methods responsecodes invert

/-- `query_headervals(s, headername)` (`WASEQuery.py` lines 56-70): main query
matches documents whose `response.headernames` contains the header, and the
aggregation chain is
`response_headers` (nested on `response.headers`) →
`header` (filter on `response.headers.name == headername`) →
`values` (terms on `response.headers.value.raw`, size 0 = unbounded) →
`main` (reverse_nested) →
`urls` (terms on `request.url.raw`, size 0 = unbounded). -/
def query_headervals (s : Search) (headername : String) : Search :=
  { s with
    query := some (Query.matchQ "response.headernames" headername),
    aggs := [⟨"response_headers", AggKind.nested "response.headers"⟩,
             ⟨"header", AggKind.filterQ (Query.matchQ "response.headers.name" headername)⟩,
             ⟨"values", AggKind.terms "response.headers.value.raw" 0⟩,
             ⟨"main", AggKind.reverse_nested⟩,
             ⟨"urls", AggKind.terms "request.url.raw" 0⟩] }

/-- `query(s, q)`: free-text search via `Q("query_string", query=q)`. -/
def query (s : Search) (q : String) : Search :=
  { s with query := some (Query.query_string q) }

/-- `add_default_aggregation(s)` (`WASEQuery.py` lines 15-17): attach one
`terms` bucket named `urls` on `request.url.raw` with `size=0` (unbounded). -/
def add_default_aggregation (s : Search) : Search :=
  { s with aggs := s.aggs ++ [⟨"urls", AggKind.terms "request.url.raw" 0⟩] }

/-- The two query types of the dispatcher (`QUERY_SEARCH = 1`,
`QUERY_VALUES = 2`). -/
inductive QueryType where
  | search
  | values
deriving Repr, DecidableEq

/-- A parsed subcommand, as produced by `argparse` (`WASEQuery.py` lines
84-105): `missingheader`/`missingparameter` carry the name, the repeatable
`--method` and `--responsecode` options (None when never given) and
`--invert`; `headervalues` carries the header, `--urls` and `--max-urls`
(default 0); `search` carries the query terms (default `["*"]`). -/
inductive Cmd where
  | missingheader (header : String) (methods responsecodes : Option (List String))
      (invert : Bool)
  | missingparameter (parameter : String) (methods responsecodes : Option (List String))
      (invert : Bool)
  | headervalues (header : String) (urls : Bool) (max_urls : Int)
  | search (queryTerms : List String)
deriving Repr, DecidableEq

/-- The dispatch on `args.cmd` (`WASEQuery.py` lines 112-124): build the
`Search` for the subcommand and record the query type.  For `search` the
terms are joined with spaces (`" ".join(args.query)`). -/
def buildQuery : Cmd → Except PyErr (Search × QueryType)
  | .missingheader h m rc inv => do
    let s ← query_missingheader emptySearch h m rc inv
    return (s, .search)
  | .missingparameter p m rc inv => do
    let s ← query_missingparam emptySearch p m rc inv
    return (s, .search)
  | .headervalues h _ _ => .ok (query_headervals emptySearch h, .values)
  | .search terms => .ok (query emptySearch (String.intercalate " " terms), .search)

/-- The pre-execution step (`WASEQuery.py` lines 129-139): in `QUERY_SEARCH`
mode, if `args.fields` is truthy the query is left as built (it will be run
with `scan()`), otherwise `add_default_aggregation` is applied (and the query
run with `execute()`); in `QUERY_VALUES` mode the query is left as built. -/
def prepareExecution (s : Search) (qt : QueryType) (fields : Option (List String)) :
    Search :=
  match qt with
  | .search => if listTruthy fields then s else add_default_aggregation s
  | .values => s

/-! ## Documents and raw-field output

A hit document is modelled as a string-keyed record whose values are either
leaf strings or one further level of string-keyed record — the only shapes
the program's dotted-path access (`split(".", 1)`) can address. -/

/-- A field value on a document: a leaf (printable) string or a sub-record
of leaf strings (the dotted-path access allows at most one level of
nesting, so deeper structure never distinguishes runs). -/
inductive FieldVal where
  | leaf (s : String)
  | sub (entries : List (String × String))
deriving Repr, DecidableEq

/-- A hit document: an ordered string-keyed record. -/
abbrev Doc := List (String × FieldVal)

/-- Python dict indexing `d[k]`: the value at the first matching key, or
`none` (a `KeyError`) when absent. -/
def getKey (d : List (String × FieldVal)) (k : String) : Option FieldVal :=
  match d with
  | [] => none
  | (k1, v) :: rest => if k1 = k then some v else getKey rest k

/-- Python dict indexing on a sub-record. -/
def getKey2 (d : List (String × String)) (k : String) : Option String :=
  match d with
  | [] => none
  | (k1, v) :: rest => if k1 = k then some v else getKey2 rest k

/-- What `print` shows for a field value: the string itself for a leaf, and
a brace-wrapped rendering for a sub-record (the exact rendering of nested
records is irrelevant to every property proved below). -/
def reprVal : FieldVal → String
  | .leaf s => s
  | .sub _ => "\x7b...\x7d"

/-- Python `f.split(".", 1)`: split at the first `"."` only. -/
def splitDot1 (s : String) : List String :=
  match pySplit '.' s with
  | [] => [s]
  | [x] => [x]
  | x :: rest => [x, String.intercalate "." rest]

/-- The field access of the raw-field loop (`WASEQuery.py` lines 150-155):
`d[fl[0]][fl[1]]` when the split produced two parts, else `d[f]`.  A missing
key raises `KeyError`; indexing a leaf string with a string key raises
`TypeError`. -/
def lookupPath (d : Doc) (f : String) : Except PyErr String :=
  match splitDot1 f with
  | [a, b] =>
    match getKey d a with
    | none => .error .keyError
    | some (.leaf _) => .error .typeError
    | some (.sub d2) =>
      match getKey2 d2 b with
      | none => .error .keyError
      | some v => .ok v
  | _ =>
    match getKey d f with
    | none => .error .keyError
    | some v => .ok (reprVal v)

/-- One field line of the raw-field loop (`WASEQuery.py` lines 149-157):
`print(f, end=": ")` followed by the value, with `except KeyError` printing
`-` instead; a `TypeError` is not caught and propagates. -/
def renderFieldLine (d : Doc) (f : String) : Except PyErr String :=
  match lookupPath d f with
  | .ok v => .ok (f ++ ": " ++ v)
  | .error .keyError => .ok (f ++ ": -")
  | .error e => .error e

/-- `print(d['request']['url'])` (`WASEQuery.py` line 147), outside any
`try`: a missing `request` key or `url` sub-key raises an uncaught
`KeyError`. -/
def getUrl (d : Doc) : Except PyErr String :=
  match getKey d "request" with
  | none => .error .keyError
  | some (.leaf _) => .error .typeError
  | some (.sub r) =>
    match getKey2 r "url" with
    | none => .error .keyError
    | some v => .ok v

/-- Exception-propagating map: run `g` on each element in order, aborting on
the first error (the behaviour of a Python `for` loop whose body may raise). -/
def mapE {α β : Type} (g : α → Except PyErr β) : List α → Except PyErr (List β)
  | [] => .ok []
  | a :: rest => do
    let b ← g a
    let bs ← mapE g rest
    return b :: bs

/-- The per-document body of the raw-field loop (`WASEQuery.py` lines
146-158): print the URL (uncaught access), then one line per requested
field, then a blank line. -/
def renderDoc (d : Doc) (fields : List String) : Except PyErr (List String) := do
  let url ← getUrl d
  let lines ← mapE (renderFieldLine d) fields
  return url :: (lines ++ [""])

/-- The whole raw-field loop `for d in r: ...`: all printed lines, aborting
on the first uncaught exception. -/
def renderAllDocs (docs : List Doc) (fields : List String) :
    Except PyErr (List String) := do
  let ls ← mapE (fun d => renderDoc d fields) docs
  return ls.flatten

/-! ## Execution results and the search-mode output -/

/-- What `r` is after the execution step: `s.execute()` yields a `Response`
(whose hits and `urls`-aggregation buckets we carry), while `s.scan()` yields
a Python generator over the hits. -/
inductive ExecResult where
  | response (hits : List Doc) (urlBuckets : List String)
  | scanGen (hits : List Doc)
deriving Repr, DecidableEq

/-- Python truthiness of `r` (the `if not r:` test, `WASEQuery.py` line 142):
an `elasticsearch_dsl` `Response` is truthy exactly when it has hits
(`Response.__bool__` is `bool(self.hits)`); a generator object is always
truthy, regardless of whether it will yield anything. -/
def truthy : ExecResult → Bool
  | .response hits _ => !hits.isEmpty
  | .scanGen _ => true

/-- The data the engine holds for a query: the matching documents and the
keys of the `urls` terms aggregation (empty when no document matches). -/
structure EngineData where
  hits : List Doc
  urlBuckets : List String
deriving Repr, DecidableEq

/-- The observable outcome of the search-mode tail (`WASEQuery.py` lines
141-161): the designated no-matches outcome (prints `No matches!`, exits 0),
a normal run printing `lines` (exits 0), or an uncaught exception (a fatal
non-zero exit). -/
inductive Outcome where
  | noMatches
  | output (lines : List String)
  | fatal (e : PyErr)
deriving Repr, DecidableEq

/-- Process exit code of each outcome: `sys.exit(0)` after `No matches!`,
normal termination 0, uncaught exception 1. -/
def exitCode : Outcome → Nat
  | .noMatches => 0
  | .output _ => 0
  | .fatal _ => 1

/-- The `QUERY_SEARCH` execution and output tail (`WASEQuery.py` lines
129-136 and 141-161): with truthy `args.fields` the result is `s.scan()`
(a generator), else `s.execute()` (a `Response`); `if not r:` prints
`No matches!` and exits 0; otherwise either the raw-field loop or the
`urls`-bucket keys are printed. -/
def runQuerySearch (fields : Option (List String)) (data : EngineData) : Outcome :=
  let r : ExecResult :=
    if listTruthy fields then .scanGen data.hits
    else .response data.hits data.urlBuckets
  if !truthy r then .noMatches
  else if listTruthy fields then
    match renderAllDocs data.hits (fields.getD []) with
    | .ok lines => .output lines
    | .error e => .fatal e
  else .output data.urlBuckets

/-! ## Header-values flattening (`QUERY_VALUES`) -/

/-- One bucket under `response_headers.header.values` in the engine's
aggregation result: the header-value key and the keys of the nested
`main.urls` buckets. -/
structure HeaderValBucket where
  key : String
  urls : List String
deriving Repr, DecidableEq

/-- The inner URL loop of the values-mode output (`WASEQuery.py` lines
170-175): print each URL key; after each print decrement the counter if it
is non-negative and break when it reaches zero.  `urlcnt = -1` (from
`max_urls <= 0`) therefore never breaks. -/
def emitUrls (urls : List String) (urlcnt : Int) : List String :=
  match urls with
  | [] => []
  | u :: rest =>
    let c := if urlcnt ≥ 0 then urlcnt - 1 else urlcnt
    if c = 0 then [u] else u :: emitUrls rest c

/-- The per-bucket body of the values-mode output (`WASEQuery.py` lines
163-176): print the header-value key; if `--urls` was given, set
`urlcnt = max_urls` when `max_urls > 0` else `-1`, print the capped URL list
and a trailing blank line. -/
def flattenValuesBucket (showUrls : Bool) (max_urls : Int) (hv : HeaderValBucket) :
    List String :=
  hv.key ::
    (if showUrls then
      emitUrls hv.urls (if max_urls > 0 then max_urls else -1) ++ [""]
    else [])

/-- The whole values-mode output loop over
`r.aggregations.response_headers.header.values.buckets`. -/
def flattenValues (showUrls : Bool) (max_urls : Int) (buckets : List HeaderValBucket) :
    List String :=
  (buckets.map (flattenValuesBucket showUrls max_urls)).flatten

/-- The text a single field line carries when the loop body does not raise:
the looked-up value, or `-` after a caught `KeyError`. -/
def lineOf (d : Doc) (f : String) : String :=
  match lookupPath d f with
  | .ok v => f ++ ": " ++ v
  | .error _ => f ++ ": -"

/-! ## Helper lemmas -/

/-- `addRcFilters` is the exception-propagating map of `parseRcFilter`
appended to the current filter list. -/
theorem addRcFilters_eq (rcs : List String) (s : Search) :
    addRcFilters s rcs =
      (mapE parseRcFilter rcs).map
        (fun fs => { s with filters := s.filters ++ fs }) := by
  induction rcs generalizing s with
  | nil => simp [addRcFilters, mapE, Except.map]
  | cons rc rest ih =>
    cases h1 : parseRcFilter rc with
    | error e =>
      simp [addRcFilters, mapE, h1, Except.map, Bind.bind, Except.bind, Functor.map]
    | ok f =>
      cases h2 : mapE parseRcFilter rest with
      | error e =>
        simp [addRcFilters, mapE, h1, h2, ih, Except.map, Bind.bind, Except.bind,
          Functor.map]
      | ok fs =>
        simp [addRcFilters, mapE, h1, h2, ih, Except.map, Bind.bind, Except.bind,
          Functor.map, pure, Except.pure, List.append_assoc]

/-- A successful `mapE` produces one output per input. -/
theorem mapE_ok_length {α β : Type} (g : α → Except PyErr β) (l : List α)
    (bs : List β) (h : mapE g l = .ok bs) : bs.length = l.length := by
  induction l generalizing bs with
  | nil =>
    simp [mapE] at h
    simp [← h]
  | cons a rest ih =>
    cases h1 : g a with
    | error e => simp [mapE, h1, Bind.bind, Except.bind] at h
    | ok b =>
      cases h2 : mapE g rest with
      | error e => simp [mapE, h1, h2, Bind.bind, Except.bind, Functor.map] at h
      | ok bs2 =>
        simp [mapE, h1, h2, Bind.bind, Except.bind, Functor.map, pure, Except.pure] at h
        simp [← h, ih bs2 h2]

/-- What `query_missing` computes, in closed form: the (possibly negated)
match query, then the optional method filter, then the response-code
filters. -/
theorem query_missing_eq (s : Search) (field name : String)
    (methods responsecodes : Option (List String)) (invert : Bool) :
    query_missing s field name methods responsecodes invert =
      (if listTruthy responsecodes then
          mapE parseRcFilter (responsecodes.getD [])
        else .ok []).map
        (fun fs =>
          { query := some (if !invert then Query.negate (Query.matchQ field name)
              else Query.matchQ field name),
            filters := s.filters ++
              (if listTruthy methods then
                [Filter.terms "request.method" (methods.getD [])] else []) ++ fs,
            aggs := s.aggs }) := by
  by_cases hrc : listTruthy responsecodes = true
  · by_cases hm : listTruthy methods = true
    · simp [query_missing, hrc, hm, addRcFilters_eq]
    · simp [query_missing, hrc, hm, addRcFilters_eq]
  · by_cases hm : listTruthy methods = true
    · simp [query_missing, hrc, hm, Except.map, Bind.bind, Except.bind, pure,
        Except.pure]
    · simp [query_missing, hrc, hm, Except.map, Bind.bind, Except.bind, pure,
        Except.pure]

/-- A non-truthy optional list is `[]` after `getD []`. -/
theorem listTruthy_false_getD {l : Option (List String)} (h : listTruthy l = false) :
    l.getD [] = [] := by
  cases l with
  | none => rfl
  | some xs =>
    simp [listTruthy] at h
    simp [h]

/-- A successful `query_missing` sets exactly the built main query. -/
theorem query_missing_ok_query {s t : Search} {field name : String}
    {methods responsecodes : Option (List String)} {invert : Bool}
    (h : query_missing s field name methods responsecodes invert = .ok t) :
    t.query = some (if !invert then Query.negate (Query.matchQ field name)
      else Query.matchQ field name) := by
  rw [query_missing_eq] at h
  cases hE : (if listTruthy responsecodes then
      mapE parseRcFilter (responsecodes.getD []) else Except.ok []) with
  | error e =>
    rw [hE] at h
    simp [Except.map] at h
  | ok fs =>
    rw [hE] at h
    simp [Except.map] at h
    rw [← h]
    cases invert <;> rfl

/-- A successful `query_missing` never touches the aggregations. -/
theorem query_missing_ok_aggs {s t : Search} {field name : String}
    {methods responsecodes : Option (List String)} {invert : Bool}
    (h : query_missing s field name methods responsecodes invert = .ok t) :
    t.aggs = s.aggs := by
  rw [query_missing_eq] at h
  cases hE : (if listTruthy responsecodes then
      mapE parseRcFilter (responsecodes.getD []) else Except.ok []) with
  | error e =>
    rw [hE] at h
    simp [Except.map] at h
  | ok fs =>
    rw [hE] at h
    simp [Except.map] at h
    rw [← h]

/-- `emitUrls` with a negative counter emits every URL (`urlcnt = -1` never
reaches the break). -/
theorem emitUrls_neg (urls : List String) (c : Int) (hc : c < 0) :
    emitUrls urls c = urls := by
  induction urls generalizing c with
  | nil => rfl
  | cons u rest ih =>
    have h1 : ¬c ≥ 0 := by omega
    have h2 : ¬c = 0 := by omega
    simp [emitUrls, h1, h2, ih c hc]

/-- `emitUrls` with a positive counter `n` emits exactly the first `n`
URLs. -/
theorem emitUrls_pos (urls : List String) (n : Int) (hn : 0 < n) :
    emitUrls urls n = urls.take n.toNat := by
  induction urls generalizing n with
  | nil => simp [emitUrls]
  | cons u rest ih =>
    have h1 : n ≥ 0 := le_of_lt hn
    by_cases h2 : n = 1
    · subst h2
      have hstep : emitUrls (u :: rest) 1 = [u] := by
        simp only [emitUrls]
        norm_num
      rw [hstep]
      rfl
    · have h3 : (0 : Int) < n - 1 := by omega
      have h4 : ¬(n - 1 = 0) := by omega
      have h5 : n.toNat = (n - 1).toNat + 1 := by omega
      have hstep : emitUrls (u :: rest) n = u :: emitUrls rest (n - 1) := by
        simp only [emitUrls]
        rw [if_pos h1, if_neg h4]
      rw [hstep, ih (n - 1) h3, h5, List.take_succ_cons]

/-- If every element maps successfully, so does the whole `mapE`. -/
theorem mapE_ok_of_forall {α β : Type} (g : α → Except PyErr β) (l : List α)
    (h : ∀ a ∈ l, ∃ b, g a = .ok b) : ∃ bs, mapE g l = .ok bs := by
  induction l with
  | nil => exact ⟨[], rfl⟩
  | cons a rest ih =>
    obtain ⟨b, hb⟩ := h a (by simp)
    obtain ⟨bs, hbs⟩ := ih (fun x hx => h x (by simp [hx]))
    exact ⟨b :: bs, by simp [mapE, hb, hbs, Bind.bind, Except.bind, Functor.map, pure,
      Except.pure]⟩

/-- A field lookup raises `KeyError` or `TypeError`, never `ValueError`. -/
theorem lookupPath_ne_valueError (d : Doc) (f : String) :
    lookupPath d f ≠ .error PyErr.valueError := by
  unfold lookupPath
  split
  · split
    · simp
    · simp
    · split <;> simp
  · split <;> simp

/-- `renderFieldLine` only raises on an uncaught `TypeError`. -/
theorem renderFieldLine_ok {d : Doc} {f : String}
    (h : lookupPath d f ≠ .error PyErr.typeError) :
    renderFieldLine d f = .ok (lineOf d f) := by
  cases hl : lookupPath d f with
  | ok v => simp [renderFieldLine, lineOf, hl]
  | error e =>
    cases e with
    | valueError => exact absurd hl (lookupPath_ne_valueError d f)
    | keyError => simp [renderFieldLine, lineOf, hl]
    | typeError => exact absurd hl h

/-! ## Claims -/

/-- **C1.** For every field, name, methods, responseCodes: the missing-query
builder `query_missing` (used by `query_missingheader` and
`query_missingparam`) with `invert = false` produces a main query that is
the negation of the equality match of `field` against `name`, and with
`invert = true` the unwrapped (non-negated) equality match. -/
theorem C1_missing_invert (s t : Search) (field name : String)
    (methods responsecodes : Option (List String)) :
    (query_missing s field name methods responsecodes false = .ok t →
      t.query = some (Query.negate (Query.matchQ field name))) ∧
    (query_missing s field name methods responsecodes true = .ok t →
      t.query = some (Query.matchQ field name)) := by
  constructor <;> intro h <;> simpa using query_missing_ok_query h

theorem C1_missing_invert_witness :
    Search.query ⟨some (Query.negate (Query.matchQ "response.headernames" "X-Frame-Options")),
        [], []⟩ =
      some (Query.negate (Query.matchQ "response.headernames" "X-Frame-Options")) :=
  (C1_missing_invert emptySearch
    ⟨some (Query.negate (Query.matchQ "response.headernames" "X-Frame-Options")), [], []⟩
    "response.headernames" "X-Frame-Options" none none).1 rfl

/-- **C2.** For every header name, `query_headervals` produces the fixed
aggregation path of §4.3 regardless of input (the spec's "4-level"
header-values path): the buckets are, in order, `response_headers` (nested
descend into `response.headers`), `header` (filter bucket on the header
name), `values` (terms on the header value), `main` (reverse-nested ascend)
and the nested `urls` (terms on the request URL). -/
theorem C2_headervals_agg_path (s : Search) (headername : String) :
    (query_headervals s headername).aggs =
      [⟨"response_headers", AggKind.nested "response.headers"⟩,
       ⟨"header", AggKind.filterQ (Query.matchQ "response.headers.name" headername)⟩,
       ⟨"values", AggKind.terms "response.headers.value.raw" 0⟩,
       ⟨"main", AggKind.reverse_nested⟩,
       ⟨"urls", AggKind.terms "request.url.raw" 0⟩] ∧
    ((query_headervals s headername).aggs.map AggBucket.name) =
      ["response_headers", "header", "values", "main", "urls"] := by
  exact ⟨rfl, rfl⟩

/-- **C3.** For every method set `M` and ordered response-code list `C`,
a successful `query_missing` starting from an empty filter list emits
exactly `(1 if M truthy else 0) + |C|` filter clauses, in input order with
the method filter first, and each response-code entry becomes its own
filter in the (conjunctive) filter list — entries are never merged. -/
theorem C3_filter_count_order (s t : Search) (field name : String)
    (methods responsecodes : Option (List String)) (invert : Bool)
    (hs : s.filters = [])
    (h : query_missing s field name methods responsecodes invert = .ok t) :
    ∃ fs, mapE parseRcFilter (responsecodes.getD []) = .ok fs ∧
      fs.length = (responsecodes.getD []).length ∧
      t.filters =
        (if listTruthy methods then
          [Filter.terms "request.method" (methods.getD [])] else []) ++ fs ∧
      t.filters.length =
        (if listTruthy methods then 1 else 0) + (responsecodes.getD []).length := by
  rw [query_missing_eq] at h
  by_cases hrc : listTruthy responsecodes = true
  · rw [if_pos hrc] at h
    cases hE : mapE parseRcFilter (responsecodes.getD []) with
    | error e =>
      rw [hE] at h
      simp [Except.map] at h
    | ok fs =>
      rw [hE] at h
      simp [Except.map] at h
      have hlen := mapE_ok_length parseRcFilter (responsecodes.getD []) fs hE
      refine ⟨fs, rfl, hlen, ?_, ?_⟩ <;> rw [← h] <;>
        by_cases hm : listTruthy methods = true <;>
          simp [hm, hs, hlen, Nat.add_comm]
  · rw [if_neg hrc] at h
    simp [Except.map] at h
    have hget : responsecodes.getD [] = [] :=
      listTruthy_false_getD (Bool.of_not_eq_true hrc)
    refine ⟨[], by rw [hget]; rfl, by rw [hget]; rfl, ?_, ?_⟩ <;> rw [← h] <;>
      by_cases hm : listTruthy methods = true <;>
        simp [hm, hs, hget]

theorem C3_filter_count_order_witness :
    ∃ fs, mapE parseRcFilter ((some ["200-299", "404"] : Option (List String)).getD []) =
        .ok fs ∧
      fs.length = ((some ["200-299", "404"] : Option (List String)).getD []).length ∧
      Search.filters ⟨some (Query.negate (Query.matchQ "response.headernames" "X")),
          [Filter.terms "request.method" ["POST"],
           Filter.range "response.status" 200 299,
           Filter.term "response.status" "404"], []⟩ =
        (if listTruthy (some ["POST"]) then
          [Filter.terms "request.method" ((some ["POST"] : Option (List String)).getD [])]
         else []) ++ fs ∧
      (Search.filters ⟨some (Query.negate (Query.matchQ "response.headernames" "X")),
          [Filter.terms "request.method" ["POST"],
           Filter.range "response.status" 200 299,
           Filter.term "response.status" "404"], []⟩).length =
        (if listTruthy (some ["POST"]) then 1 else 0) +
          ((some ["200-299", "404"] : Option (List String)).getD []).length :=
  C3_filter_count_order emptySearch
    ⟨some (Query.negate (Query.matchQ "response.headernames" "X")),
     [Filter.terms "request.method" ["POST"],
      Filter.range "response.status" 200 299,
      Filter.term "response.status" "404"], []⟩
    "response.headernames" "X" (some ["POST"]) (some ["200-299", "404"]) false
    rfl rfl

/-- **C4.** For every response-code entry: splitting on `-` into exactly two
integer parts gives the inclusive range filter on `response.status`; one
part (or more than two) gives a `term` filter carrying the entry as a
string; exactly two parts with a non-integer part makes the builder fail
with `ValueError` (the spec's `InvalidRangeError`), so `query_missing`
returns no query at all. -/
theorem C4_responsecode_parsing (rc : String) :
    (∀ a b x y, pySplit '-' rc = [a, b] → pyInt a = some x → pyInt b = some y →
      parseRcFilter rc = .ok (Filter.range "response.status" x y)) ∧
    (∀ a b, pySplit '-' rc = [a, b] → pyInt a = none ∨ pyInt b = none →
      parseRcFilter rc = .error PyErr.valueError) ∧
    ((pySplit '-' rc).length ≠ 2 →
      parseRcFilter rc = .ok (Filter.term "response.status" rc)) ∧
    (∀ s field name methods invert,
      parseRcFilter rc = .error PyErr.valueError →
      query_missing s field name methods (some [rc]) invert =
        .error PyErr.valueError) := by
  refine ⟨?_, ?_, ?_, ?_⟩
  · intro a b x y hsp ha hb
    simp [parseRcFilter, hsp, ha, hb]
  · intro a b hsp hor
    cases hpa : pyInt a with
    | none => simp [parseRcFilter, hsp, hpa]
    | some x =>
      cases hpb : pyInt b with
      | none => simp [parseRcFilter, hsp, hpa, hpb]
      | some y =>
        rcases hor with h | h
        · rw [hpa] at h
          cases h
        · rw [hpb] at h
          cases h
  · intro hlen
    rcases hsp : pySplit '-' rc with _ | ⟨a, _ | ⟨b, _ | ⟨c, rest⟩⟩⟩
    · simp [parseRcFilter, hsp]
    · simp [parseRcFilter, hsp]
    · exact absurd (by simp [hsp]) hlen
    · simp [parseRcFilter, hsp]
  · intro s field name methods invert hp
    rw [query_missing_eq]
    have : mapE parseRcFilter [rc] = .error PyErr.valueError := by
      simp [mapE, hp, Bind.bind, Except.bind]
    simp [listTruthy, this, Except.map]

theorem C4_responsecode_parsing_witness :
    parseRcFilter "200-299" = .ok (Filter.range "response.status" 200 299) ∧
    parseRcFilter "404" = .ok (Filter.term "response.status" "404") ∧
    parseRcFilter "abc-299" = .error PyErr.valueError ∧
    query_missing emptySearch "response.headernames" "X" none (some ["abc-299"]) false =
      .error PyErr.valueError :=
  ⟨(C4_responsecode_parsing "200-299").1 "200" "299" 200 299 rfl rfl rfl,
   (C4_responsecode_parsing "404").2.2.1 (by decide),
   (C4_responsecode_parsing "abc-299").2.1 "abc" "299" rfl (Or.inl rfl),
   (C4_responsecode_parsing "abc-299").2.2.2 emptySearch "response.headernames" "X"
     none false ((C4_responsecode_parsing "abc-299").2.1 "abc" "299" rfl (Or.inl rfl))⟩

/-- **C5.** For every invocation of a missing-header, missing-parameter or
free-text intent (the commands whose query type is `QUERY_SEARCH`): when the
caller has not requested raw field output, exactly one default aggregation —
a single unbounded `terms` bucket on the request URL field, named `urls` —
is attached before execution; when raw fields are requested, no aggregation
is attached. -/
theorem C5_default_aggregation (c : Cmd) (s : Search)
    (h : buildQuery c = .ok (s, QueryType.search)) :
    (∀ fields, listTruthy fields = false →
      (prepareExecution s QueryType.search fields).aggs =
        [⟨"urls", AggKind.terms "request.url.raw" 0⟩]) ∧
    (∀ fields, listTruthy fields = true →
      (prepareExecution s QueryType.search fields).aggs = []) := by
  have hs : s.aggs = [] := by
    cases c with
    | missingheader hh m rc inv =>
      cases hq : query_missingheader emptySearch hh m rc inv with
      | error e =>
        simp [buildQuery, hq, Bind.bind, Except.bind] at h
      | ok s2 =>
        simp [buildQuery, hq, Bind.bind, Except.bind, pure, Except.pure] at h
        rw [query_missingheader] at hq
        rw [← h]
        exact query_missing_ok_aggs hq
    | missingparameter p m rc inv =>
      cases hq : query_missingparam emptySearch p m rc inv with
      | error e =>
        simp [buildQuery, hq, Bind.bind, Except.bind] at h
      | ok s2 =>
        simp [buildQuery, hq, Bind.bind, Except.bind, pure, Except.pure] at h
        rw [query_missingparam] at hq
        rw [← h]
        exact query_missing_ok_aggs hq
    | headervalues hh u mu =>
      simp [buildQuery] at h
    | search terms =>
      simp [buildQuery, WASEQuery.query] at h
      rw [← h]
      rfl
  constructor <;> intro fields hf <;>
    simp [prepareExecution, hf, add_default_aggregation, hs]

theorem C5_default_aggregation_witness :
    (prepareExecution ⟨some (Query.query_string "*"), [], []⟩ QueryType.search none).aggs =
      [⟨"urls", AggKind.terms "request.url.raw" 0⟩] ∧
    (prepareExecution ⟨some (Query.query_string "*"), [], []⟩ QueryType.search
        (some ["request.url"])).aggs = [] :=
  ⟨(C5_default_aggregation (Cmd.search ["*"])
      ⟨some (Query.query_string "*"), [], []⟩ rfl).1 none rfl,
   (C5_default_aggregation (Cmd.search ["*"])
      ⟨some (Query.query_string "*"), [], []⟩ rfl).2 (some ["request.url"]) rfl⟩

/-- **C6.** In header-values flattening with URL listing requested: for a
bucket holding 5 URL keys, `max_urls = 2` emits exactly the first 2 URL keys
in the bucket's original order, `max_urls = 0` emits all 5, and the cap
never alters the header-value key that is reported (it always heads the
bucket's output). -/
theorem C6_url_cap (hv : HeaderValBucket) (h5 : hv.urls.length = 5) :
    flattenValuesBucket true 2 hv = hv.key :: (hv.urls.take 2 ++ [""]) ∧
    (hv.urls.take 2).length = 2 ∧
    flattenValuesBucket true 0 hv = hv.key :: (hv.urls ++ [""]) ∧
    ∀ m : Int, (flattenValuesBucket true m hv).head? = some hv.key := by
  refine ⟨?_, ?_, ?_, ?_⟩
  · have h2 : ((2 : Int)).toNat = 2 := rfl
    simp [flattenValuesBucket, emitUrls_pos hv.urls 2 (by norm_num), h2]
  · simp [h5]
  · simp [flattenValuesBucket, emitUrls_neg hv.urls (-1) (by norm_num)]
  · intro m
    simp [flattenValuesBucket]

theorem C6_url_cap_witness :
    flattenValuesBucket true 2 ⟨"DENY", ["u1", "u2", "u3", "u4", "u5"]⟩ =
      ["DENY", "u1", "u2", ""] ∧
    flattenValuesBucket true 0 ⟨"DENY", ["u1", "u2", "u3", "u4", "u5"]⟩ =
      ["DENY", "u1", "u2", "u3", "u4", "u5", ""] := by
  have h := C6_url_cap ⟨"DENY", ["u1", "u2", "u3", "u4", "u5"]⟩ rfl
  exact ⟨by rw [h.1]; rfl, by rw [h.2.2.1]; rfl⟩

/-- **C7 (counterexample).** The claim "every search-mode invocation with
zero matching documents prints `No matches!`" is false when raw fields are
requested: `scan()` returns a generator, which is always truthy, so with
`--fields` and zero hits the run prints nothing (outcome `output []`) and
never reaches the `No matches!` branch. -/
theorem C7_counterexample :
    runQuerySearch (some ["request.url"]) ⟨[], []⟩ = Outcome.output [] ∧
    runQuerySearch (some ["request.url"]) ⟨[], []⟩ ≠ Outcome.noMatches := by
  constructor
  · rfl
  · intro h
    rw [show runQuerySearch (some ["request.url"]) ⟨[], []⟩ = Outcome.output [] from rfl]
      at h
    cases h

/-- **C7 (amended).** For every search-mode invocation where the caller has
not requested raw field output, a result set with zero matching documents
makes the program print exactly `No matches!` and exit with code 0 (a
designated non-error outcome); with raw fields requested the result is a
generator, which is always truthy, so the `No matches!` outcome is never
produced. -/
theorem C7_empty_result (fields : Option (List String)) (data : EngineData) :
    (listTruthy fields = false → data.hits = [] →
      runQuerySearch fields data = Outcome.noMatches ∧
      exitCode (runQuerySearch fields data) = 0) ∧
    (listTruthy fields = true →
      runQuerySearch fields data ≠ Outcome.noMatches) := by
  constructor
  · intro hf hh
    have hout : runQuerySearch fields data = Outcome.noMatches := by
      simp [runQuerySearch, hf, truthy, hh]
    exact ⟨hout, by rw [hout]; rfl⟩
  · intro hf
    cases hr : renderAllDocs data.hits (fields.getD []) with
    | ok lines => simp [runQuerySearch, hf, truthy, hr]
    | error e => simp [runQuerySearch, hf, truthy, hr]

theorem C7_empty_result_witness :
    runQuerySearch none ⟨[], []⟩ = Outcome.noMatches ∧
    exitCode (runQuerySearch none ⟨[], []⟩) = 0 :=
  (C7_empty_result none ⟨[], []⟩).1 rfl rfl

/-- **C8.** In raw-field search mode, a requested dotted field path that is
absent on a document (a `KeyError` lookup) is rendered as the placeholder
line `f: -`, and as long as every document carries `request.url` and no
lookup hits the uncaught `TypeError` case, the whole run over all documents
and fields succeeds — a missing requested field is never fatal. -/
theorem C8_missing_field_placeholder (docs : List Doc) (fields : List String)
    (hu : ∀ d ∈ docs, ∃ u, getUrl d = .ok u)
    (hnt : ∀ d ∈ docs, ∀ f ∈ fields, lookupPath d f ≠ .error PyErr.typeError) :
    (∃ lines, renderAllDocs docs fields = .ok lines) ∧
    ∀ d ∈ docs, ∀ f ∈ fields, lookupPath d f = .error PyErr.keyError →
      renderFieldLine d f = .ok (f ++ ": -") := by
  constructor
  · have hdoc : ∀ d ∈ docs, ∃ lines, renderDoc d fields = .ok lines := by
      intro d hd
      obtain ⟨u, hu2⟩ := hu d hd
      obtain ⟨ls, hls⟩ := mapE_ok_of_forall (renderFieldLine d) fields
        (fun f hf => ⟨lineOf d f, renderFieldLine_ok (hnt d hd f hf)⟩)
      exact ⟨u :: (ls ++ [""]), by
        simp [renderDoc, hu2, hls, Bind.bind, Except.bind, pure, Except.pure]⟩
    obtain ⟨lss, hlss⟩ := mapE_ok_of_forall (fun d => renderDoc d fields) docs hdoc
    exact ⟨lss.flatten, by
      simp [renderAllDocs, hlss, Bind.bind, Except.bind, pure, Except.pure]⟩
  · intro d _ f _ hkey
    simp [renderFieldLine, hkey]

theorem C8_missing_field_placeholder_witness :
    (∃ lines, renderAllDocs [[("request", FieldVal.sub [("url", "http://a/")])]]
        ["response.status"] = .ok lines) ∧
    renderFieldLine [("request", FieldVal.sub [("url", "http://a/")])] "response.status" =
      .ok ("response.status" ++ ": -") := by
  have h := C8_missing_field_placeholder
    [[("request", FieldVal.sub [("url", "http://a/")])]] ["response.status"]
    (by
      intro d hd
      simp at hd
      subst hd
      exact ⟨"http://a/", rfl⟩)
    (by
      intro d hd f hf
      simp at hd hf
      subst hd
      subst hf
      intro hcontra
      rw [show lookupPath [("request", FieldVal.sub [("url", "http://a/")])]
          "response.status" = .error PyErr.keyError from rfl] at hcontra
      cases hcontra)
  exact ⟨h.1, h.2 _ (by simp) _ (by simp) rfl⟩

/-- **C9.** In raw-field search mode the value of `request.url` is printed
first for every matching document, whether or not `request.url` is among
the requested fields; this access sits outside the `except KeyError`
recovery, so on a document lacking `request.url` the exception escapes and
the per-document rendering aborts with the error instead of emitting a
placeholder. -/
theorem C9_url_outside_recovery (d : Doc) (fields : List String) :
    (∀ e, getUrl d = .error e → renderDoc d fields = .error e) ∧
    (∀ lines, renderDoc d fields = .ok lines →
      ∃ u, getUrl d = .ok u ∧ lines.head? = some u) := by
  constructor
  · intro e he
    simp [renderDoc, he, Bind.bind, Except.bind]
  · intro lines hl
    cases hu : getUrl d with
    | error e => simp [renderDoc, hu, Bind.bind, Except.bind] at hl
    | ok u =>
      refine ⟨u, rfl, ?_⟩
      cases hm : mapE (renderFieldLine d) fields with
      | error e => simp [renderDoc, hu, hm, Bind.bind, Except.bind] at hl
      | ok ls =>
        simp [renderDoc, hu, hm, Bind.bind, Except.bind, pure, Except.pure] at hl
        simp [← hl]

theorem C9_url_outside_recovery_witness :
    renderDoc [("other", FieldVal.leaf "x")] ["response.status"] =
      .error PyErr.keyError :=
  (C9_url_outside_recovery [("other", FieldVal.leaf "x")] ["response.status"]).1
    PyErr.keyError rfl

/-- **C10.** In header-values flattening with URL listing requested, every
negative `max_urls` is treated exactly like `max_urls = 0`, i.e. as
unbounded: the counter is initialised to `-1` in both cases and every URL
key of the bucket is emitted. -/
theorem C10_negative_max_urls (m : Int) (hm : m < 0) (showUrls : Bool)
    (hv : HeaderValBucket) :
    flattenValuesBucket showUrls m hv = flattenValuesBucket showUrls 0 hv ∧
    flattenValuesBucket true m hv = hv.key :: (hv.urls ++ [""]) := by
  have h1 : ¬m > 0 := by omega
  constructor
  · simp [flattenValuesBucket, h1]
  · simp [flattenValuesBucket, h1, emitUrls_neg hv.urls (-1) (by norm_num)]

theorem C10_negative_max_urls_witness :
    flattenValuesBucket true (-3) ⟨"DENY", ["u1", "u2"]⟩ = ["DENY", "u1", "u2", ""] := by
  have h := C10_negative_max_urls (-3) (by norm_num) true ⟨"DENY", ["u1", "u2"]⟩
  rw [h.2]
  rfl

end WASEQuery
